import Mathlib

/-
Verification of the save path of the `buffer` package (save.go):
`overwriteFile`, `Save`, `SaveAs`, `SaveWithSudo`, `SaveAsWithSudo`.

The embedding is byte-level and effect-explicit: buffer lines are lists of
byte values, the filesystem / process / external collaborators are an oracle
environment `Env`, and every externally visible action is recorded in an
event trace so that "no filesystem operation happened" and ordering facts
are provable.
-/

set_option autoImplicit false

namespace MicroBuffer

/-- Raw byte content (a Go `[]byte`); each entry is one byte value. -/
abbrev Bytes := List Nat

/-- Line-ending convention of a buffer (`b.Endings`).  The source only ever
tests `b.Endings == FFDos`, every other value gets a plain `\n`, so the two
constructors cover all behaviour. -/
inductive FileFormat
  | FFUnix
  | FFDos
deriving DecidableEq, Repr

/-- The end-of-line byte sequence chosen in the write closure of `SaveAs`:
`{'\r','\n'}` for `FFDos`, `{'\n'}` otherwise. -/
def eolBytes : FileFormat → Bytes
  | .FFDos => [13, 10]
  | .FFUnix => [10]

/-- Bytes produced by the write loop of `SaveAs` for the lines after line 0:
for every such line, the line terminator followed by the line's raw bytes. -/
def serializeRest (ff : FileFormat) : List Bytes → Bytes
  | [] => []
  | l :: rest => eolBytes ff ++ l ++ serializeRest ff rest

/-- Full byte stream written by the `SaveAs` write closure: nothing for an
empty line list, otherwise line 0's raw bytes followed by terminator+line
for each subsequent line. -/
def serializeLines (ff : FileFormat) : List Bytes → Bytes
  | [] => []
  | l0 :: rest => l0 ++ serializeRest ff rest

/-- The `fileSize` accumulator of `SaveAs`: `len(line0)` from the first
write, then `len(eol) + len(line)` added per remaining line. -/
def saveFileSize (ff : FileFormat) : List Bytes → Nat
  | [] => 0
  | l0 :: rest => rest.foldl (fun acc l => acc + ((eolBytes ff).length + l.length)) l0.length

/-- LargeFileThreshold is the number of bytes when fastdirty is forced
because hashing is too slow (source constant, 50000). -/
def LargeFileThreshold : Nat := 50000

/-- Whitespace test used by the trailing-whitespace trim
(`unicode.IsSpace`, restricted to the ASCII range: space, TAB, LF, VT, FF,
CR — the claims under verification do not depend on non-ASCII whitespace). -/
def isSpaceByte (c : Nat) : Bool :=
  c = 32 || c = 9 || c = 10 || c = 13 || c = 11 || c = 12

/-- Net effect on one line of the `rmtrailingws` loop of `SaveAs`: the line
keeps exactly the prefix left by `bytes.TrimRightFunc(l.data, unicode.IsSpace)`;
the `b.Remove` call deletes the trailing whitespace run (the buffer's
`Remove` lives outside this package's source; the spec describes the step as
"remove trailing whitespace runes from every line in place"). -/
def trimTrailingWs (l : Bytes) : Bytes :=
  (l.reverse.dropWhile isSpaceByte).reverse

/-- Modelled from the spec: the `eofnewline` step of `SaveAs` calls the
buffer primitives `End`, `RuneAt`, `Insert`, which are not part of this
package's source.  The spec states: "If the 'ensure trailing newline' option
is enabled and the buffer's last character is not a newline, append one."
In the line representation (lines hold no terminators) the buffer's last
character is a newline exactly when the last line is empty, and appending a
`\n` at the very end appends a fresh empty line. -/
def eofnewlineStep (lines : List Bytes) : List Bytes :=
  match lines.getLast? with
  | some l => if l = [] then lines else lines ++ [[]]
  | none => lines

/-- Errors the save path can produce or observe. -/
inductive Err
  | scratch
  | mkdirFail
  | parentDirs
  | encodingUnknown
  | openFail
  | writeFail
  | closeFail
  | serializeFail
  | helperSpawn
  | helperExit
deriving DecidableEq, Repr

/-- Messages of the two errors built with `errors.New` in the source; the
remaining errors carry operating-system text and are left abstract. -/
def errMessage : Err → String
  | .scratch => "Cannot save scratch buffer"
  | .parentDirs => "Parent dirs don't exist, enable 'mkparents' for auto creation"
  | _ => "<system error>"

/-- Externally visible actions of the save path, in program order. -/
inductive Ev
  | statDir (d : String)
  | mkdirAll (d : String)
  | openTrunc (p : String)
  | writeFile (p : String) (content : Bytes)
  | closeFile (p : String)
  | getModTime (p : String)
  | persistState
  | setPath (p : String)
  | setAbsPath (p : String)
  | signalNotify
  | spawnForwarder
  | startHelper (cmd : String) (arg : String) (dest : String)
  | waitHelper
  | signalStop
deriving DecidableEq, Repr

/-- Per-buffer options read (and in one case written) by the save path. -/
structure Settings where
  rmtrailingws : Bool
  eofnewline : Bool
  mkparents : Bool
  fastdirty : Bool
  encoding : String
deriving DecidableEq, Repr

/-- The buffer state touched by the save path.  `ModTime` is a numeric
timestamp, `0` standing for Go's zero `time.Time` (what the field keeps when
`GetModTime` fails and its error is discarded). -/
structure Buffer where
  lines : List Bytes
  Path : String
  AbsPath : String
  isModified : Bool
  scratchType : Bool
  Endings : FileFormat
  ModTime : Nat
  origHash : Nat
  settings : Settings
deriving DecidableEq, Repr

/-- Oracle for everything outside the save path: filesystem answers,
encoding table, helper-process outcome, the state-persistence call. -/
structure Env where
  home : String
  cwd : String
  encodingKnown : String → Bool
  dirExists : String → Bool
  mkdirOk : String → Bool
  openOk : String → Bool
  writeOk : Bool
  closeOk : Bool
  modTimeOf : String → Option Nat
  serializeOk : Bool
  hashOf : List Bytes → Nat
  helperWait : Option Err
  sucmd : String

/-- Modelled from the spec: `ReplaceHome` (internal/util, outside this
package's source) — "Resolve destination to an absolute path, expanding a
leading home-directory shorthand"; the call site reads
`absFilename, _ := ReplaceHome(filename)`, discarding the error. -/
def replaceHome (home p : String) : String :=
  match p.toList with
  | '~' :: rest => home ++ String.mk rest
  | _ => p

/-- Go `filepath.Dir` on slash-separated paths: everything before the last
separator, `"."` when the path has no separator, `"/"` when the separator
is leading (path cleaning is elided; the save path only branches on `"."`
versus a concrete parent). -/
def filepathDir (p : String) : String :=
  let cs := p.toList
  if cs.contains '/' then
    let d := ((cs.reverse.dropWhile (fun c => c != '/')).drop 1).reverse
    if d = [] then "/" else String.mk d
  else "."

/-- Go `filepath.Abs`: an absolute path is returned unchanged, a relative
one is joined to the working directory (cleaning elided). -/
def filepathAbs (cwd p : String) : String :=
  match p.toList with
  | '/' :: _ => p
  | _ => cwd ++ "/" ++ p

/-- Result of `overwriteFile`: the returned error and whether the file
handle was closed. -/
structure OwfResult where
  ret : Option Err
  closed : Bool
deriving DecidableEq, Repr

/-- overwriteFile opens the given file for writing (create+truncate), calls
the supplied function, and closes the file via a deferred block.  `openR`,
`fnR`, `closeR` are the outcomes of the three steps.  The deferred close
runs whenever the open succeeded, and its error is kept only when the named
result `err` is still nil (`if e := file.Close(); e != nil && err == nil`). -/
def overwriteFile (openR fnR closeR : Option Err) : OwfResult :=
  match openR with
  | some e => ⟨some e, false⟩
  | none =>
    let err := fnR
    let err := match closeR with
      | some e => if err.isNone then some e else err
      | none => err
    ⟨err, true⟩

/-- Pre-write normalization of `SaveAs`: the `rmtrailingws` trim of every
line (followed in the source by `RelocateCursors`, cursor state being
outside this model), then the `eofnewline` step. -/
def normalizeForSave (b : Buffer) : Buffer :=
  let b1 := if b.settings.rmtrailingws then { b with lines := b.lines.map trimTrailingWs } else b
  if b1.settings.eofnewline then { b1 with lines := eofnewlineStep b1.lines } else b1

/-- Outcome of one `SaveAs` call: final buffer, returned error, the byte
stream handed to the encoder when open and all writes succeeded, the path
actually opened (created/truncated), the `fileSize` accumulator, whether a
content hash was computed, whether fast-dirty mode was engaged, the error of
the deferred `b.Serialize()` (discarded by the source, see `SaveAs`),
whether that deferred bookkeeping ran, and the event trace. -/
structure SaveResult where
  buf : Buffer
  ret : Option Err
  written : Option Bytes
  writtenPath : Option String
  fileSize : Nat
  hashed : Bool
  fastDirtyEngaged : Bool
  deferredSerializeErr : Option Err
  serializeCalled : Bool
  events : List Ev
deriving DecidableEq, Repr

/-- The dirty-tracking step of `SaveAs` after a successful write: when
`fastdirty` is off, a `fileSize` above `LargeFileThreshold` forces
`fastdirty` on (hash skipped), otherwise `calcHash(b, &b.origHash)` stores
a fresh content hash.  Returns the buffer, whether a hash was computed, and
whether fast-dirty mode was engaged. -/
def applyDirtyHash (env : Env) (b : Buffer) (fileSize : Nat) : Buffer × Bool × Bool :=
  if b.settings.fastdirty = false then
    if fileSize > LargeFileThreshold then
      ({ b with settings := { b.settings with fastdirty := true } }, false, true)
    else
      ({ b with origHash := env.hashOf b.lines }, true, false)
  else (b, false, false)

/-- The encoding lookup, `overwriteFile` call, threshold/hash step and final
path/modified updates of `SaveAs` (everything after the parent-directory
check).  `absFilename` is the home-expanded destination actually opened;
`filename` is the argument, which is what the source assigns to `b.Path`
and feeds to `filepath.Abs`. -/
def saveAsWrite (env : Env) (b : Buffer) (filename absFilename : String) : SaveResult :=
  if env.encodingKnown b.settings.encoding = false then
    ⟨b, some .encodingUnknown, none, none, 0, false, false, none, false, []⟩
  else
    let openR : Option Err := if env.openOk absFilename then none else some .openFail
    let fnR : Option Err :=
      if b.lines = [] then none
      else if env.writeOk then none else some .writeFail
    let closeR : Option Err := if env.closeOk then none else some .closeFail
    let owf := overwriteFile openR fnR closeR
    let content := serializeLines b.Endings b.lines
    let ok := openR = none ∧ fnR = none
    let written : Option Bytes := if ok then some content else none
    let writtenPath : Option String := if openR = none then some absFilename else none
    let fileSize : Nat := if ok then saveFileSize b.Endings b.lines else 0
    let evs : List Ev :=
      if openR = none then
        [.openTrunc absFilename] ++
          (if b.lines ≠ [] ∧ env.writeOk then [.writeFile absFilename content] else []) ++
          [.closeFile absFilename]
      else []
    match owf.ret with
    | some e => ⟨b, some e, written, writtenPath, fileSize, false, false, none, false, evs⟩
    | none =>
      let hb := applyDirtyHash env b fileSize
      let b3 := { hb.1 with
        Path := filename
        AbsPath := filepathAbs env.cwd filename
        isModified := false }
      ⟨b3, none, written, writtenPath, fileSize, hb.2.1, hb.2.2, none, false, evs⟩

/-- Body of `SaveAs` after normalization: home expansion, the
parent-directory existence check with the `mkparents` branch, then
`saveAsWrite`. -/
def saveAsBody (env : Env) (b : Buffer) (filename : String) : SaveResult :=
  let absFilename := replaceHome env.home filename
  let dirname := filepathDir absFilename
  if dirname = "." then
    saveAsWrite env b filename absFilename
  else
    if env.dirExists dirname = false then
      if b.settings.mkparents then
        if env.mkdirOk dirname then
          let r := saveAsWrite env b filename absFilename
          { r with events := [.statDir dirname, .mkdirAll dirname] ++ r.events }
        else
          ⟨b, some .mkdirFail, none, none, 0, false, false, none, false,
            [.statDir dirname, .mkdirAll dirname]⟩
      else
        ⟨b, some .parentDirs, none, none, 0, false, false, none, false, [.statDir dirname]⟩
    else
      let r := saveAsWrite env b filename absFilename
      { r with events := [.statDir dirname] ++ r.events }

/-- SaveAs saves the buffer to a specified path, creating the file if it
does not exist.  Control flow of the source: the scratch check first (no
defer registered yet), then normalization, then the body; the deferred block
registered right after normalization runs on every remaining exit path and
does `b.ModTime, _ = GetModTime(filename)` followed by `err = b.Serialize()`.
`err` there is a plain local variable — `SaveAs` has an unnamed result — so
the deferred assignment runs after the return value is already fixed and the
`Serialize` error never reaches the caller; the model keeps the returned
error from the body and records the discarded error in
`deferredSerializeErr`. -/
def SaveAs (env : Env) (b : Buffer) (filename : String) : SaveResult :=
  if b.scratchType then
    ⟨b, some .scratch, none, none, 0, false, false, none, false, []⟩
  else
    let b2 := normalizeForSave b
    let r := saveAsBody env b2 filename
    { r with
      buf := { r.buf with ModTime := (env.modTimeOf filename).getD 0 }
      deferredSerializeErr := if env.serializeOk then none else some .serializeFail
      serializeCalled := true
      events := r.events ++ [.getModTime filename, .persistState] }

/-- Save saves the buffer to its default path. -/
def Save (env : Env) (b : Buffer) : SaveResult :=
  SaveAs env b b.Path

/-- Outcome of one `SaveAsWithSudo` call. -/
structure SudoResult where
  buf : Buffer
  ret : Option Err
  stdin : Option Bytes
  events : List Ev
deriving DecidableEq, Repr

/-- Modelled from the spec: `b.Bytes()` (buffer internals, outside this
package's source) — "the buffer's raw byte content (original internal
encoding, no transform) attached as its input stream"; lines joined by the
internal newline. -/
def bufferBytes (b : Buffer) : Bytes :=
  serializeLines .FFUnix b.lines

/-- SaveAsWithSudo: scratch check, then `b.Path`/`b.AbsPath` are updated
before anything is written; the helper `<sucmd> tee <filename>` is started
with the buffer bytes on stdin after `signal.Notify` plus a forwarding
goroutine are installed (the source never calls `signal.Stop` nor closes the
channel, so no teardown event exists).  `cmd.Start()`'s own error is
discarded; only `cmd.Wait()`'s outcome (`env.helperWait`) is observed.  On
success the source clears `isModified`, re-reads the timestamp and returns
`b.Serialize()` — here the Serialize error is the returned value. -/
def SaveAsWithSudo (env : Env) (b : Buffer) (filename : String) : SudoResult :=
  if b.scratchType then
    ⟨b, some .scratch, none, []⟩
  else
    let b1 := { b with Path := filename, AbsPath := filepathAbs env.cwd filename }
    let evs : List Ev :=
      [.setPath filename, .setAbsPath (filepathAbs env.cwd filename),
       .signalNotify, .spawnForwarder,
       .startHelper env.sucmd "tee" filename, .waitHelper]
    match env.helperWait with
    | none =>
      let b2 := { b1 with
        isModified := false
        ModTime := (env.modTimeOf filename).getD 0 }
      ⟨b2, if env.serializeOk then none else some .serializeFail,
        some (bufferBytes b), evs ++ [.getModTime filename, .persistState]⟩
    | some e => ⟨b1, some e, some (bufferBytes b), evs⟩

/-- SaveWithSudo saves the buffer to the default path with sudo. -/
def SaveWithSudo (env : Env) (b : Buffer) : SudoResult :=
  SaveAsWithSudo env b b.Path

/-- The parent-directory check of `SaveAs` lets execution reach the write
when the destination has no leading path, when the parent exists, or when
`mkparents` is on and `MkdirAll` succeeds. -/
abbrev dirPass (env : Env) (mkparents : Bool) (filename : String) : Prop :=
  filepathDir (replaceHome env.home filename) = "." ∨
  env.dirExists (filepathDir (replaceHome env.home filename)) = true ∨
  (mkparents = true ∧ env.mkdirOk (filepathDir (replaceHome env.home filename)) = true)

/-! Concrete oracles and buffers used to instantiate the theorems. -/

/-- An environment in which every external operation succeeds. -/
def baseEnv : Env :=
  { home := "/home/u", cwd := "/cwd",
    encodingKnown := fun _ => true, dirExists := fun _ => true,
    mkdirOk := fun _ => true, openOk := fun _ => true,
    writeOk := true, closeOk := true,
    modTimeOf := fun _ => some 7, serializeOk := true,
    hashOf := fun _ => 0, helperWait := none, sucmd := "sudo" }

/-- A small non-scratch buffer: one line `"a "` with a trailing space. -/
def baseBuf : Buffer :=
  { lines := [[97, 32]], Path := "old", AbsPath := "/old", isModified := true,
    scratchType := false, Endings := .FFUnix, ModTime := 5, origHash := 3,
    settings := { rmtrailingws := false, eofnewline := false, mkparents := false,
                  fastdirty := false, encoding := "utf-8" } }

/-! ## Serialization lemmas -/

lemma serializeRest_eq_intercalate (ff : FileFormat) :
    ∀ l0 : Bytes, ∀ rest : List Bytes,
      l0 ++ serializeRest ff rest = List.intercalate (eolBytes ff) (l0 :: rest) := by
  intro l0 rest
  induction rest generalizing l0 with
  | nil => simp [serializeRest, List.intercalate, List.intersperse_singleton]
  | cons l2 rest2 ih =>
    have h2 := ih l2
    simp only [List.intercalate] at h2 ⊢
    rw [List.intersperse_cons_cons, List.flatten_cons, List.flatten_cons, ← h2]
    simp [serializeRest, List.append_assoc]

lemma foldl_sizes (ff : FileFormat) :
    ∀ (rest : List Bytes) (acc : Nat),
      rest.foldl (fun a l => a + ((eolBytes ff).length + l.length)) acc
        = acc + (serializeRest ff rest).length := by
  intro rest
  induction rest with
  | nil => intro acc; simp [serializeRest]
  | cons l r ih => intro acc; simp [serializeRest, ih]; omega

lemma saveFileSize_eq_length (ff : FileFormat) (ls : List Bytes) :
    saveFileSize ff ls = (serializeLines ff ls).length := by
  cases ls with
  | nil => rfl
  | cons l0 rest => simp [saveFileSize, serializeLines, foldl_sizes]

lemma serializeRest_concat_empty (ff : FileFormat) :
    ∀ ls : List Bytes, serializeRest ff (ls ++ [[]]) = serializeRest ff ls ++ eolBytes ff := by
  intro ls
  induction ls with
  | nil => simp [serializeRest]
  | cons l rest ih => simp [serializeRest, ih]

lemma serializeLines_concat_empty (ff : FileFormat) (ls : List Bytes) (h : ls ≠ []) :
    serializeLines ff (ls ++ [[]]) = serializeLines ff ls ++ eolBytes ff := by
  cases ls with
  | nil => exact absurd rfl h
  | cons l0 rest => simp [serializeLines, serializeRest_concat_empty]

lemma eofnewlineStep_of_last (ls : List Bytes) (l : Bytes)
    (h : ls.getLast? = some l) (hl : l ≠ []) :
    eofnewlineStep ls = ls ++ [[]] := by
  simp [eofnewlineStep, h, hl]

lemma eofnewlineStep_idem (ls : List Bytes) :
    eofnewlineStep (eofnewlineStep ls) = eofnewlineStep ls := by
  cases h : ls.getLast? with
  | none => simp [eofnewlineStep, h]
  | some l =>
    by_cases hl : l = []
    · simp [eofnewlineStep, h, hl]
    · have h1 : eofnewlineStep ls = ls ++ [[]] := by simp [eofnewlineStep, h, hl]
      rw [h1]
      simp [eofnewlineStep]

/-- C1: For every buffer with N lines, the write closure of SaveAs emits
line 0's raw bytes followed, for each subsequent line, by the configured
line terminator (LF for Unix endings, CR LF for DOS endings) and that
line's raw bytes — i.e. the lines intercalated with the terminator — with
no terminator after the last line; zero lines produce an empty stream and a
single line is emitted without any terminator. -/
theorem saveAs_serialization (ff : FileFormat) (lines : List Bytes) :
    serializeLines ff lines = List.intercalate (eolBytes ff) lines ∧
    serializeLines ff ([] : List Bytes) = [] ∧
    (∀ l : Bytes, serializeLines ff [l] = l) ∧
    eolBytes FileFormat.FFUnix = [10] ∧
    eolBytes FileFormat.FFDos = [13, 10] := by
  refine ⟨?_, rfl, ?_, rfl, rfl⟩
  · cases lines with
    | nil => simp [serializeLines, List.intercalate]
    | cons l0 rest => simpa [serializeLines] using serializeRest_eq_intercalate ff l0 rest
  · intro l
    simp [serializeLines, serializeRest]

/-- C6: overwriteFile closes the destination handle on every exit path
after a successful open, and surfaces errors in open-then-callback-then-
close priority: an open error returns immediately (nothing to close), a
callback error is returned even when close also fails, and a close error is
returned only when the callback succeeded. -/
theorem overwriteFile_close_priority (openR fnR closeR : Option Err) :
    ((overwriteFile openR fnR closeR).closed = true ↔ openR = none) ∧
    (∀ e : Err, openR = some e →
        overwriteFile openR fnR closeR = ⟨some e, false⟩) ∧
    (∀ e : Err, openR = none → fnR = some e →
        (overwriteFile openR fnR closeR).ret = some e) ∧
    (openR = none → fnR = none →
        (overwriteFile openR fnR closeR).ret = closeR) := by
  cases openR <;> cases fnR <;> cases closeR <;> simp [overwriteFile]

/-- Witness for C6 at a concrete input: with a failing callback and a
failing close, the callback error wins and the handle is still closed. -/
theorem overwriteFile_close_priority_w :
    (overwriteFile none (some .writeFail) (some .closeFail)).ret = some .writeFail ∧
    (overwriteFile none (some .writeFail) (some .closeFail)).closed = true :=
  ⟨(overwriteFile_close_priority none (some .writeFail) (some .closeFail)).2.2.1
      .writeFail rfl rfl,
   ((overwriteFile_close_priority none (some .writeFail) (some .closeFail)).1).mpr rfl⟩

/-- C2: For every buffer marked scratch, Save, SaveAs, SaveWithSudo and
SaveAsWithSudo all return the "Cannot save scratch buffer" error before
performing any external operation: the buffer is unchanged and the event
trace is empty, so no file is created or modified. -/
theorem scratch_never_saved (env : Env) (b : Buffer) (filename : String)
    (h : b.scratchType = true) :
    SaveAs env b filename =
      ⟨b, some .scratch, none, none, 0, false, false, none, false, []⟩ ∧
    Save env b =
      ⟨b, some .scratch, none, none, 0, false, false, none, false, []⟩ ∧
    SaveAsWithSudo env b filename = ⟨b, some .scratch, none, []⟩ ∧
    SaveWithSudo env b = ⟨b, some .scratch, none, []⟩ ∧
    errMessage .scratch = "Cannot save scratch buffer" := by
  refine ⟨?_, ?_, ?_, ?_, rfl⟩ <;>
    simp [SaveAs, Save, SaveAsWithSudo, SaveWithSudo, h]

/-- Witness for C2: a concrete scratch buffer. -/
theorem scratch_never_saved_w :
    ({ baseBuf with scratchType := true } : Buffer).scratchType = true ∧
    (SaveAs baseEnv { baseBuf with scratchType := true } "f").events = [] ∧
    (SaveAsWithSudo baseEnv { baseBuf with scratchType := true } "f").ret =
      some .scratch :=
  ⟨rfl,
   by rw [(scratch_never_saved baseEnv { baseBuf with scratchType := true } "f" rfl).1],
   by rw [(scratch_never_saved baseEnv { baseBuf with scratchType := true } "f" rfl).2.2.1]⟩

/-- C7: For a non-scratch buffer, SaveAsWithSudo updates Path and AbsPath
before starting the helper (they are the first two actions of the trace),
and on helper failure it returns the underlying error while every other
buffer field — modified flag, content hash, ModTime, lines, settings — is
left untouched; the path fields are not rolled back. -/
theorem sudo_failure_frame (env : Env) (b : Buffer) (filename : String) (e : Err)
    (hs : b.scratchType = false) (hw : env.helperWait = some e) :
    (SaveAsWithSudo env b filename).ret = some e ∧
    (SaveAsWithSudo env b filename).buf =
      { b with Path := filename, AbsPath := filepathAbs env.cwd filename } ∧
    (SaveAsWithSudo env b filename).events =
      [.setPath filename, .setAbsPath (filepathAbs env.cwd filename),
       .signalNotify, .spawnForwarder,
       .startHelper env.sucmd "tee" filename, .waitHelper] := by
  simp [SaveAsWithSudo, hs, hw]

/-- Witness for C7: a concrete helper failure (non-zero exit). -/
theorem sudo_failure_frame_w :
    (SaveAsWithSudo { baseEnv with helperWait := some .helperExit } baseBuf "f").ret =
      some .helperExit ∧
    (SaveAsWithSudo { baseEnv with helperWait := some .helperExit } baseBuf "f").buf =
      { baseBuf with Path := "f", AbsPath := "/cwd/f" } :=
  ⟨(sudo_failure_frame { baseEnv with helperWait := some .helperExit } baseBuf "f"
      .helperExit rfl rfl).1,
   by
    rw [(sudo_failure_frame { baseEnv with helperWait := some .helperExit } baseBuf "f"
      .helperExit rfl rfl).2.1]
    rfl⟩

/-- C3 (code bug): on a run where the scratch check, normalization,
directory check, encoding lookup, open, writes and close all succeed but
the deferred bookkeeping's `b.Serialize()` fails, SaveAs still returns nil:
the deferred block assigns the Serialize error to a local variable while
the function has an unnamed result, so the error is discarded and never
reaches the caller, contrary to the claim that it would be the returned
error when everything else succeeded.  The bookkeeping itself does run
(timestamp re-read and persistence events are on the trace). -/
theorem saveAs_bookkeeping_error_swallowed :
    ({ baseEnv with serializeOk := false } : Env).serializeOk = false ∧
    (SaveAs { baseEnv with serializeOk := false } baseBuf "f").deferredSerializeErr =
      some .serializeFail ∧
    (SaveAs { baseEnv with serializeOk := false } baseBuf "f").serializeCalled = true ∧
    Ev.getModTime "f" ∈ (SaveAs { baseEnv with serializeOk := false } baseBuf "f").events ∧
    Ev.persistState ∈ (SaveAs { baseEnv with serializeOk := false } baseBuf "f").events ∧
    (SaveAs { baseEnv with serializeOk := false } baseBuf "f").ret = none := by
  decide

/-! ## Structural lemmas on the SaveAs pipeline -/

lemma applyDirtyHash_frame (env : Env) (b : Buffer) (n : Nat) :
    (applyDirtyHash env b n).1.lines = b.lines ∧
    (applyDirtyHash env b n).1.Endings = b.Endings ∧
    (applyDirtyHash env b n).1.scratchType = b.scratchType ∧
    (applyDirtyHash env b n).1.ModTime = b.ModTime ∧
    (applyDirtyHash env b n).1.settings.encoding = b.settings.encoding ∧
    (applyDirtyHash env b n).1.settings.eofnewline = b.settings.eofnewline ∧
    (applyDirtyHash env b n).1.settings.rmtrailingws = b.settings.rmtrailingws ∧
    (applyDirtyHash env b n).1.settings.mkparents = b.settings.mkparents := by
  unfold applyDirtyHash
  split
  · split <;> simp
  · simp

lemma applyDirtyHash_spec (env : Env) (b : Buffer) (n : Nat)
    (hfd : b.settings.fastdirty = false) :
    (n ≤ LargeFileThreshold →
      applyDirtyHash env b n = ({ b with origHash := env.hashOf b.lines }, true, false)) ∧
    (LargeFileThreshold < n →
      applyDirtyHash env b n =
        ({ b with settings := { b.settings with fastdirty := true } }, false, true)) := by
  constructor <;> intro hn <;> simp [applyDirtyHash, hfd] <;> omega

lemma saveAsWrite_ret_none_iff (env : Env) (b : Buffer) (f a : String) :
    (saveAsWrite env b f a).ret = none ↔
      (env.encodingKnown b.settings.encoding = true ∧ env.openOk a = true ∧
       (b.lines = [] ∨ env.writeOk = true) ∧ env.closeOk = true) := by
  cases henc : env.encodingKnown b.settings.encoding <;>
  cases hopen : env.openOk a <;>
  cases hw : env.writeOk <;>
  cases hc : env.closeOk <;>
  by_cases hl : b.lines = [] <;>
  simp [saveAsWrite, overwriteFile, henc, hopen, hw, hc, hl]

lemma saveAsWrite_io (env : Env) (b : Buffer) (f a : String)
    (henc : env.encodingKnown b.settings.encoding = true)
    (hopen : env.openOk a = true)
    (hwl : b.lines = [] ∨ env.writeOk = true) :
    (saveAsWrite env b f a).written = some (serializeLines b.Endings b.lines) ∧
    (saveAsWrite env b f a).writtenPath = some a ∧
    (saveAsWrite env b f a).fileSize = saveFileSize b.Endings b.lines := by
  rcases hwl with hl | hw
  · cases hc : env.closeOk <;>
      simp [saveAsWrite, overwriteFile, henc, hopen, hc, hl, saveFileSize, serializeLines]
  · cases hc : env.closeOk <;> by_cases hl : b.lines = [] <;>
      simp [saveAsWrite, overwriteFile, henc, hopen, hc, hw, hl, saveFileSize, serializeLines]

lemma saveAsWrite_success_buf (env : Env) (b : Buffer) (f a : String)
    (h : (saveAsWrite env b f a).ret = none) :
    (saveAsWrite env b f a).buf.Path = f ∧
    (saveAsWrite env b f a).buf.AbsPath = filepathAbs env.cwd f ∧
    (saveAsWrite env b f a).buf.isModified = false ∧
    (saveAsWrite env b f a).buf.lines = b.lines ∧
    (saveAsWrite env b f a).buf.Endings = b.Endings ∧
    (saveAsWrite env b f a).buf.scratchType = b.scratchType ∧
    (saveAsWrite env b f a).buf.settings.encoding = b.settings.encoding ∧
    (saveAsWrite env b f a).buf.settings.eofnewline = b.settings.eofnewline ∧
    (saveAsWrite env b f a).buf.settings.rmtrailingws = b.settings.rmtrailingws ∧
    (saveAsWrite env b f a).buf.settings.mkparents = b.settings.mkparents := by
  obtain ⟨henc, hopen, hwl, hc⟩ := (saveAsWrite_ret_none_iff env b f a).mp h
  have hf := applyDirtyHash_frame env b (saveFileSize b.Endings b.lines)
  rcases hwl with hl | hw
  · simp [saveAsWrite, overwriteFile, henc, hopen, hc, hl] at hf ⊢
    exact ⟨hf.1, hf.2.1, hf.2.2.1, hf.2.2.2.2.1, hf.2.2.2.2.2.1, hf.2.2.2.2.2.2.1,
      hf.2.2.2.2.2.2.2⟩
  · by_cases hl : b.lines = [] <;>
      simp [saveAsWrite, overwriteFile, henc, hopen, hc, hw, hl] at hf ⊢ <;>
      exact ⟨hf.1, hf.2.1, hf.2.2.1, hf.2.2.2.2.1, hf.2.2.2.2.2.1, hf.2.2.2.2.2.2.1,
        hf.2.2.2.2.2.2.2⟩

lemma saveAsWrite_hash (env : Env) (b : Buffer) (f a : String)
    (h : (saveAsWrite env b f a).ret = none)
    (hfd : b.settings.fastdirty = false) :
    ((saveAsWrite env b f a).fileSize ≤ LargeFileThreshold →
      (saveAsWrite env b f a).hashed = true ∧
      (saveAsWrite env b f a).fastDirtyEngaged = false ∧
      (saveAsWrite env b f a).buf.settings.fastdirty = false ∧
      (saveAsWrite env b f a).buf.origHash = env.hashOf b.lines) ∧
    (LargeFileThreshold < (saveAsWrite env b f a).fileSize →
      (saveAsWrite env b f a).hashed = false ∧
      (saveAsWrite env b f a).fastDirtyEngaged = true ∧
      (saveAsWrite env b f a).buf.settings.fastdirty = true ∧
      (saveAsWrite env b f a).buf.origHash = b.origHash) := by
  obtain ⟨henc, hopen, hwl, hc⟩ := (saveAsWrite_ret_none_iff env b f a).mp h
  have hsz := (saveAsWrite_io env b f a henc hopen hwl).2.2
  have hspec := applyDirtyHash_spec env b (saveFileSize b.Endings b.lines) hfd
  rw [hsz]
  constructor <;> intro hn
  · have he := hspec.1 hn
    rcases hwl with hl | hw
    · simp [saveAsWrite, overwriteFile, henc, hopen, hc, hl, saveFileSize] at he ⊢
      simp [he, hfd]
    · by_cases hl : b.lines = [] <;>
        simp [saveAsWrite, overwriteFile, henc, hopen, hc, hw, hl, saveFileSize] at he ⊢ <;>
        simp [he, hfd]
  · have he := hspec.2 hn
    rcases hwl with hl | hw
    · simp [saveAsWrite, overwriteFile, henc, hopen, hc, hl, saveFileSize] at he ⊢
      simp [he]
    · by_cases hl : b.lines = [] <;>
        simp [saveAsWrite, overwriteFile, henc, hopen, hc, hw, hl, saveFileSize] at he ⊢ <;>
        simp [he]

lemma saveAsWrite_enc_fail (env : Env) (b : Buffer) (f a : String)
    (henc : env.encodingKnown b.settings.encoding = false) :
    saveAsWrite env b f a =
      ⟨b, some .encodingUnknown, none, none, 0, false, false, none, false, []⟩ := by
  simp [saveAsWrite, henc]

lemma saveAsBody_fields (env : Env) (b : Buffer) (f : String)
    (hd : dirPass env b.settings.mkparents f) :
    (saveAsBody env b f).ret = (saveAsWrite env b f (replaceHome env.home f)).ret ∧
    (saveAsBody env b f).buf = (saveAsWrite env b f (replaceHome env.home f)).buf ∧
    (saveAsBody env b f).written = (saveAsWrite env b f (replaceHome env.home f)).written ∧
    (saveAsBody env b f).writtenPath =
      (saveAsWrite env b f (replaceHome env.home f)).writtenPath ∧
    (saveAsBody env b f).fileSize = (saveAsWrite env b f (replaceHome env.home f)).fileSize ∧
    (saveAsBody env b f).hashed = (saveAsWrite env b f (replaceHome env.home f)).hashed ∧
    (saveAsBody env b f).fastDirtyEngaged =
      (saveAsWrite env b f (replaceHome env.home f)).fastDirtyEngaged := by
  by_cases h1 : filepathDir (replaceHome env.home f) = "."
  · simp [saveAsBody, h1]
  · by_cases h2 : env.dirExists (filepathDir (replaceHome env.home f)) = true
    · simp [saveAsBody, h1, h2]
    · have h2f : env.dirExists (filepathDir (replaceHome env.home f)) = false := by
        cases hx : env.dirExists (filepathDir (replaceHome env.home f))
        · rfl
        · exact absurd hx h2
      rcases hd with hd | hd | ⟨hmk, hok⟩
      · exact absurd hd h1
      · exact absurd hd h2
      · simp [saveAsBody, h1, h2f, hmk, hok]

lemma saveAsBody_ret_none_inv (env : Env) (b : Buffer) (f : String)
    (h : (saveAsBody env b f).ret = none) :
    dirPass env b.settings.mkparents f := by
  by_cases h1 : filepathDir (replaceHome env.home f) = "."
  · exact Or.inl h1
  · by_cases h2 : env.dirExists (filepathDir (replaceHome env.home f)) = true
    · exact Or.inr (Or.inl h2)
    · have h2f : env.dirExists (filepathDir (replaceHome env.home f)) = false := by
        cases hx : env.dirExists (filepathDir (replaceHome env.home f))
        · rfl
        · exact absurd hx h2
      by_cases hmk : b.settings.mkparents = true
      · by_cases hok : env.mkdirOk (filepathDir (replaceHome env.home f)) = true
        · exact Or.inr (Or.inr ⟨hmk, hok⟩)
        · have hokf : env.mkdirOk (filepathDir (replaceHome env.home f)) = false := by
            cases hx : env.mkdirOk (filepathDir (replaceHome env.home f))
            · rfl
            · exact absurd hx hok
          simp [saveAsBody, h1, h2f, hmk, hokf] at h
      · have hmkf : b.settings.mkparents = false := by
          cases hx : b.settings.mkparents
          · rfl
          · exact absurd hx hmk
        simp [saveAsBody, h1, h2f, hmkf] at h

lemma normalizeForSave_frame (b : Buffer) :
    (normalizeForSave b).settings = b.settings ∧
    (normalizeForSave b).Endings = b.Endings ∧
    (normalizeForSave b).scratchType = b.scratchType ∧
    (normalizeForSave b).origHash = b.origHash := by
  by_cases h1 : b.settings.rmtrailingws = true <;>
  by_cases h2 : b.settings.eofnewline = true <;>
  simp [normalizeForSave, h1, h2]

lemma normalizeForSave_lines (b : Buffer) :
    (normalizeForSave b).lines =
      (if b.settings.eofnewline = true then eofnewlineStep else id)
        (if b.settings.rmtrailingws = true then b.lines.map trimTrailingWs else b.lines) := by
  by_cases h1 : b.settings.rmtrailingws = true <;>
  by_cases h2 : b.settings.eofnewline = true <;>
  simp [normalizeForSave, h1, h2]

lemma saveAs_of_nonscratch (env : Env) (b : Buffer) (f : String)
    (hs : b.scratchType = false) :
    (SaveAs env b f).ret = (saveAsBody env (normalizeForSave b) f).ret ∧
    (SaveAs env b f).written = (saveAsBody env (normalizeForSave b) f).written ∧
    (SaveAs env b f).writtenPath = (saveAsBody env (normalizeForSave b) f).writtenPath ∧
    (SaveAs env b f).fileSize = (saveAsBody env (normalizeForSave b) f).fileSize ∧
    (SaveAs env b f).hashed = (saveAsBody env (normalizeForSave b) f).hashed ∧
    (SaveAs env b f).fastDirtyEngaged =
      (saveAsBody env (normalizeForSave b) f).fastDirtyEngaged ∧
    (SaveAs env b f).buf =
      { (saveAsBody env (normalizeForSave b) f).buf with
          ModTime := (env.modTimeOf f).getD 0 } := by
  simp [SaveAs, hs]

lemma saveAs_ret_none_scratch (env : Env) (b : Buffer) (f : String)
    (h : (SaveAs env b f).ret = none) :
    b.scratchType = false := by
  cases hx : b.scratchType
  · rfl
  · simp [SaveAs, hx] at h

lemma saveAs_success_inv (env : Env) (b : Buffer) (f : String)
    (h : (SaveAs env b f).ret = none) :
    b.scratchType = false ∧
    dirPass env b.settings.mkparents f ∧
    env.encodingKnown b.settings.encoding = true ∧
    env.openOk (replaceHome env.home f) = true ∧
    ((normalizeForSave b).lines = [] ∨ env.writeOk = true) ∧
    env.closeOk = true := by
  have hs := saveAs_ret_none_scratch env b f h
  have hretb : (saveAsBody env (normalizeForSave b) f).ret = none := by
    rw [← (saveAs_of_nonscratch env b f hs).1]
    exact h
  have hset := (normalizeForSave_frame b).1
  have hdp0 := saveAsBody_ret_none_inv env (normalizeForSave b) f hretb
  rw [hset] at hdp0
  have hdp1 : dirPass env (normalizeForSave b).settings.mkparents f := by
    rw [hset]
    exact hdp0
  have hretw : (saveAsWrite env (normalizeForSave b) f (replaceHome env.home f)).ret = none := by
    rw [← (saveAsBody_fields env (normalizeForSave b) f hdp1).1]
    exact hretb
  have hw := (saveAsWrite_ret_none_iff env (normalizeForSave b) f (replaceHome env.home f)).mp hretw
  have henc := hw.1
  rw [hset] at henc
  exact ⟨hs, hdp0, henc, hw.2.1, hw.2.2.1, hw.2.2.2⟩

lemma saveAs_written_of (env : Env) (b : Buffer) (f : String)
    (hs : b.scratchType = false)
    (hd : dirPass env b.settings.mkparents f)
    (henc : env.encodingKnown b.settings.encoding = true)
    (hopen : env.openOk (replaceHome env.home f) = true)
    (hwl : (normalizeForSave b).lines = [] ∨ env.writeOk = true) :
    (SaveAs env b f).written =
      some (serializeLines b.Endings (normalizeForSave b).lines) := by
  have hset := (normalizeForSave_frame b).1
  have hend := (normalizeForSave_frame b).2.1
  have hdp1 : dirPass env (normalizeForSave b).settings.mkparents f := by
    rw [hset]
    exact hd
  have henc1 : env.encodingKnown (normalizeForSave b).settings.encoding = true := by
    rw [hset]
    exact henc
  have hio := (saveAsWrite_io env (normalizeForSave b) f (replaceHome env.home f)
    henc1 hopen hwl).1
  rw [(saveAs_of_nonscratch env b f hs).2.1,
    (saveAsBody_fields env (normalizeForSave b) f hdp1).2.2.1, hio, hend]

/-- C9 counterexample: on a concrete successful privileged save the trace
installs the signal interception before the helper starts, but contains no
deregistration action at all — the source never calls signal.Stop nor
closes the channel — so the teardown the claim requires does not happen. -/
theorem sudo_signal_no_teardown_cex :
    Ev.signalStop ∉ (SaveAsWithSudo baseEnv baseBuf "f").events ∧
    Ev.signalNotify ∈ (SaveAsWithSudo baseEnv baseBuf "f").events ∧
    (SaveAsWithSudo baseEnv baseBuf "f").ret = none := by
  decide

/-- C9 (amended): the interception is installed before the helper starts —
the trace begins with the path updates, then the signal registration and
the forwarding task, then helper start and wait — but it is never torn
down: no deregistration action occurs on any path, success or failure, so
the listener remains active after the privileged save completes. -/
theorem sudo_signal_scope (env : Env) (b : Buffer) (filename : String)
    (hs : b.scratchType = false) :
    (SaveAsWithSudo env b filename).events.take 6 =
      [.setPath filename, .setAbsPath (filepathAbs env.cwd filename),
       .signalNotify, .spawnForwarder,
       .startHelper env.sucmd "tee" filename, .waitHelper] ∧
    Ev.signalStop ∉ (SaveAsWithSudo env b filename).events := by
  cases hwc : env.helperWait <;> simp [SaveAsWithSudo, hs, hwc]

/-- Witness for C9's amended theorem at a concrete input. -/
theorem sudo_signal_scope_w :
    (SaveAsWithSudo baseEnv baseBuf "p").events.take 6 =
      [.setPath "p", .setAbsPath "/cwd/p", .signalNotify, .spawnForwarder,
       .startHelper "sudo" "tee" "p", .waitHelper] := by
  have h := (sudo_signal_scope baseEnv baseBuf "p" rfl).1
  rw [h]
  rfl

/-- Environment for the home-expansion scenario: only the expanded
destination `/home/u/f` exists on disk and carries timestamp 42. -/
def envC4 : Env :=
  { baseEnv with modTimeOf := fun p => if p = "/home/u/f" then some 42 else none }

/-- C4 counterexample: saving to "~/f" writes the file at the expanded
path "/home/u/f", yet Path keeps the unexpanded argument "~/f", AbsPath
becomes "/cwd/~/f" (filepath.Abs of the raw argument), and ModTime is
re-read from the literal path "~/f" — which does not exist — leaving the
zero timestamp instead of the written file's actual timestamp 42. -/
theorem saveAs_tilde_cex :
    (SaveAs envC4 baseBuf "~/f").ret = none ∧
    (SaveAs envC4 baseBuf "~/f").writtenPath = some "/home/u/f" ∧
    (SaveAs envC4 baseBuf "~/f").buf.Path = "~/f" ∧
    (SaveAs envC4 baseBuf "~/f").buf.Path ≠ "/home/u/f" ∧
    (SaveAs envC4 baseBuf "~/f").buf.AbsPath = "/cwd/~/f" ∧
    (SaveAs envC4 baseBuf "~/f").buf.ModTime = 0 ∧
    envC4.modTimeOf "/home/u/f" = some 42 := by
  decide

/-- C4 (amended): after a successful SaveAs the modified flag is false,
Path is set to the destination argument exactly as passed and AbsPath to
filepath.Abs of that argument — without home expansion — while the bytes
were written to the home-expanded path; ModTime is re-read from the
unexpanded argument path, so it equals the written file's timestamp
exactly when the argument needed no expansion. -/
theorem saveAs_success_state (env : Env) (b : Buffer) (filename : String)
    (h : (SaveAs env b filename).ret = none) :
    (SaveAs env b filename).buf.isModified = false ∧
    (SaveAs env b filename).buf.Path = filename ∧
    (SaveAs env b filename).buf.AbsPath = filepathAbs env.cwd filename ∧
    (SaveAs env b filename).buf.ModTime = (env.modTimeOf filename).getD 0 ∧
    (SaveAs env b filename).writtenPath = some (replaceHome env.home filename) := by
  obtain ⟨hs, hd, henc, hopen, hwl, hc⟩ := saveAs_success_inv env b filename h
  have hset := (normalizeForSave_frame b).1
  obtain ⟨sRet, sWritten, sWPath, sSize, sHash, sFde, sBuf⟩ :=
    saveAs_of_nonscratch env b filename hs
  have hdp1 : dirPass env (normalizeForSave b).settings.mkparents filename := by
    rw [hset]
    exact hd
  obtain ⟨bRet, bBuf, bWritten, bWPath, bSize, bHash, bFde⟩ :=
    saveAsBody_fields env (normalizeForSave b) filename hdp1
  have hretw :
      (saveAsWrite env (normalizeForSave b) filename (replaceHome env.home filename)).ret
        = none := by
    rw [← bRet, ← sRet]
    exact h
  obtain ⟨wPath, wAbs, wMod, wLines, wEnd, wScratch, wEncS, wEof, wRm, wMk⟩ :=
    saveAsWrite_success_buf env (normalizeForSave b) filename
      (replaceHome env.home filename) hretw
  have henc1 : env.encodingKnown (normalizeForSave b).settings.encoding = true := by
    rw [hset]
    exact henc
  have hio := saveAsWrite_io env (normalizeForSave b) filename
    (replaceHome env.home filename) henc1 hopen hwl
  refine ⟨?_, ?_, ?_, ?_, ?_⟩
  · simp [sBuf, bBuf, wMod]
  · simp [sBuf, bBuf, wPath]
  · simp [sBuf, bBuf, wAbs]
  · simp [sBuf]
  · rw [sWPath, bWPath, hio.2.1]

/-- Witness for C4's amended theorem: a plain destination with no tilde. -/
theorem saveAs_success_state_w :
    (SaveAs baseEnv baseBuf "f").ret = none ∧
    (SaveAs baseEnv baseBuf "f").buf.isModified = false ∧
    (SaveAs baseEnv baseBuf "f").buf.Path = "f" ∧
    (SaveAs baseEnv baseBuf "f").buf.ModTime = 7 := by
  have h := saveAs_success_state baseEnv baseBuf "f" (by decide)
  exact ⟨by decide, h.1, h.2.1, by rw [h.2.2.2.1]; rfl⟩

/-- C5: on every successful SaveAs of a buffer not already in fast-dirty
mode, a serialized size of at most 50000 bytes (the fileSize accumulator
equals the length of the serialized stream) recomputes and stores the
content hash and leaves fastdirty off, while a size strictly above 50000
skips hashing, leaves the hash untouched and switches fastdirty on. -/
theorem saveAs_large_file_threshold (env : Env) (b : Buffer) (filename : String)
    (hfd : b.settings.fastdirty = false)
    (h : (SaveAs env b filename).ret = none) :
    ((SaveAs env b filename).fileSize ≤ LargeFileThreshold →
      (SaveAs env b filename).hashed = true ∧
      (SaveAs env b filename).fastDirtyEngaged = false ∧
      (SaveAs env b filename).buf.settings.fastdirty = false ∧
      (SaveAs env b filename).buf.origHash = env.hashOf (normalizeForSave b).lines) ∧
    (LargeFileThreshold < (SaveAs env b filename).fileSize →
      (SaveAs env b filename).hashed = false ∧
      (SaveAs env b filename).fastDirtyEngaged = true ∧
      (SaveAs env b filename).buf.settings.fastdirty = true ∧
      (SaveAs env b filename).buf.origHash = b.origHash) ∧
    (SaveAs env b filename).fileSize =
      (serializeLines b.Endings (normalizeForSave b).lines).length ∧
    LargeFileThreshold = 50000 := by
  obtain ⟨hs, hd, henc, hopen, hwl, hc⟩ := saveAs_success_inv env b filename h
  have hset := (normalizeForSave_frame b).1
  have hend := (normalizeForSave_frame b).2.1
  have hhash0 := (normalizeForSave_frame b).2.2.2
  obtain ⟨sRet, sWritten, sWPath, sSize, sHash, sFde, sBuf⟩ :=
    saveAs_of_nonscratch env b filename hs
  have hdp1 : dirPass env (normalizeForSave b).settings.mkparents filename := by
    rw [hset]
    exact hd
  obtain ⟨bRet, bBuf, bWritten, bWPath, bSize, bHash, bFde⟩ :=
    saveAsBody_fields env (normalizeForSave b) filename hdp1
  have hretw :
      (saveAsWrite env (normalizeForSave b) filename (replaceHome env.home filename)).ret
        = none := by
    rw [← bRet, ← sRet]
    exact h
  have hfd1 : (normalizeForSave b).settings.fastdirty = false := by
    rw [hset]
    exact hfd
  have hh := saveAsWrite_hash env (normalizeForSave b) filename
    (replaceHome env.home filename) hretw hfd1
  have henc1 : env.encodingKnown (normalizeForSave b).settings.encoding = true := by
    rw [hset]
    exact henc
  have hio := saveAsWrite_io env (normalizeForSave b) filename
    (replaceHome env.home filename) henc1 hopen hwl
  have hszw :
      (SaveAs env b filename).fileSize =
        (saveAsWrite env (normalizeForSave b) filename
          (replaceHome env.home filename)).fileSize := by
    rw [sSize, bSize]
  refine ⟨?_, ?_, ?_, ?_⟩
  · intro hn
    rw [hszw] at hn
    obtain ⟨x1, x2, x3, x4⟩ := hh.1 hn
    refine ⟨by rw [sHash, bHash, x1], by rw [sFde, bFde, x2], ?_, ?_⟩
    · simp [sBuf, bBuf, x3]
    · simp [sBuf, bBuf, x4]
  · intro hn
    rw [hszw] at hn
    obtain ⟨x1, x2, x3, x4⟩ := hh.2 hn
    refine ⟨by rw [sHash, bHash, x1], by rw [sFde, bFde, x2], ?_, ?_⟩
    · simp [sBuf, bBuf, x3]
    · simp [sBuf, bBuf, x4, hhash0]
  · rw [hszw, hio.2.2, hend, saveFileSize_eq_length]
  · rfl

/-- Witness for C5: a two-byte buffer is far below the threshold, so the
hash is recomputed and fast-dirty mode is not engaged. -/
theorem saveAs_large_file_threshold_w :
    baseBuf.settings.fastdirty = false ∧
    (SaveAs baseEnv baseBuf "f").ret = none ∧
    (SaveAs baseEnv baseBuf "f").fileSize ≤ LargeFileThreshold ∧
    (SaveAs baseEnv baseBuf "f").hashed = true ∧
    (SaveAs baseEnv baseBuf "f").fastDirtyEngaged = false := by
  have h := saveAs_large_file_threshold baseEnv baseBuf "f" rfl (by decide)
  exact ⟨rfl, by decide, by decide, (h.1 (by decide)).1, (h.1 (by decide)).2.1⟩

/-- Buffer for the eofnewline scenario: eofnewline on, no trailing-space
trim, content one line "a " not ending in a newline. -/
def bufC8 : Buffer :=
  { baseBuf with settings := { baseBuf.settings with eofnewline := true } }

/-- C8: with eofnewline enabled (and the trim option off), SaveAs on a
Unix-endings buffer whose last line is nonempty — i.e. whose last character
is not a newline — writes exactly the old serialization followed by one
single LF byte, and is idempotent: saving the resulting buffer again to the
same destination writes the identical byte stream, because the appended
empty last line means no further newline is inserted. -/
theorem saveAs_eofnewline_once (env : Env) (b : Buffer) (filename : String) (l : Bytes)
    (heof : b.settings.eofnewline = true)
    (hrm : b.settings.rmtrailingws = false)
    (hff : b.Endings = .FFUnix)
    (hlast : b.lines.getLast? = some l)
    (hl : l ≠ [])
    (h : (SaveAs env b filename).ret = none) :
    (SaveAs env b filename).written =
      some (serializeLines .FFUnix b.lines ++ [10]) ∧
    (SaveAs env (SaveAs env b filename).buf filename).written =
      (SaveAs env b filename).written := by
  obtain ⟨hs, hd, henc, hopen, hwl, hc⟩ := saveAs_success_inv env b filename h
  have hset := (normalizeForSave_frame b).1
  have hend := (normalizeForSave_frame b).2.1
  have hbne : b.lines ≠ [] := by
    cases hx : b.lines
    · rw [hx] at hlast
      simp [List.getLast?] at hlast
    · simp [hx]
  have hnl0 : (normalizeForSave b).lines = eofnewlineStep b.lines := by
    rw [normalizeForSave_lines b]
    simp [heof, hrm]
  have hnl : (normalizeForSave b).lines = b.lines ++ [[]] := by
    rw [hnl0, eofnewlineStep_of_last b.lines l hlast hl]
  have hw1 := saveAs_written_of env b filename hs hd henc hopen hwl
  have hser :
      serializeLines b.Endings (normalizeForSave b).lines =
        serializeLines .FFUnix b.lines ++ [10] := by
    rw [hnl, hff, serializeLines_concat_empty .FFUnix b.lines hbne]
    rfl
  obtain ⟨sRet, sWritten, sWPath, sSize, sHash, sFde, sBuf⟩ :=
    saveAs_of_nonscratch env b filename hs
  have hdp1 : dirPass env (normalizeForSave b).settings.mkparents filename := by
    rw [hset]
    exact hd
  obtain ⟨bRet, bBuf, bWritten, bWPath, bSize, bHash, bFde⟩ :=
    saveAsBody_fields env (normalizeForSave b) filename hdp1
  have hretw :
      (saveAsWrite env (normalizeForSave b) filename (replaceHome env.home filename)).ret
        = none := by
    rw [← bRet, ← sRet]
    exact h
  obtain ⟨wPath, wAbs, wMod, wLines, wEnd, wScratch, wEncS, wEof, wRm, wMk⟩ :=
    saveAsWrite_success_buf env (normalizeForSave b) filename
      (replaceHome env.home filename) hretw
  have hs2 : (SaveAs env b filename).buf.scratchType = false := by
    simp [sBuf, bBuf, wScratch, (normalizeForSave_frame b).2.2.1, hs]
  have hmk2 : (SaveAs env b filename).buf.settings.mkparents = b.settings.mkparents := by
    simp [sBuf, bBuf, wMk, hset]
  have henc2 : (SaveAs env b filename).buf.settings.encoding = b.settings.encoding := by
    simp [sBuf, bBuf, wEncS, hset]
  have heof2 : (SaveAs env b filename).buf.settings.eofnewline = true := by
    simp [sBuf, bBuf, wEof, hset, heof]
  have hrm2 : (SaveAs env b filename).buf.settings.rmtrailingws = false := by
    simp [sBuf, bBuf, wRm, hset, hrm]
  have hend2 : (SaveAs env b filename).buf.Endings = b.Endings := by
    simp [sBuf, bBuf, wEnd, hend]
  have hlines2 : (SaveAs env b filename).buf.lines = (normalizeForSave b).lines := by
    simp [sBuf, bBuf, wLines]
  have hwk : env.writeOk = true := by
    rcases hwl with hx | hx
    · rw [hnl] at hx
      exact absurd hx (by simp)
    · exact hx
  have hd2 : dirPass env (SaveAs env b filename).buf.settings.mkparents filename := by
    rw [hmk2]
    exact hd
  have henc2t : env.encodingKnown (SaveAs env b filename).buf.settings.encoding = true := by
    rw [henc2]
    exact henc
  have hnl2 :
      (normalizeForSave (SaveAs env b filename).buf).lines = (normalizeForSave b).lines := by
    rw [normalizeForSave_lines ((SaveAs env b filename).buf)]
    simp [heof2, hrm2, hlines2, hnl0, eofnewlineStep_idem]
  have hw2 := saveAs_written_of env (SaveAs env b filename).buf filename hs2 hd2 henc2t
    hopen (Or.inr hwk)
  constructor
  · rw [hw1, hser]
  · rw [hw2, hw1, hend2, hnl2]

/-- Witness for C8: saving "a " (no trailing newline) writes "a \n", and a
second save of the resulting buffer writes the same bytes. -/
theorem saveAs_eofnewline_once_w :
    bufC8.settings.eofnewline = true ∧
    (SaveAs baseEnv bufC8 "f").written = some [97, 32, 10] ∧
    (SaveAs baseEnv (SaveAs baseEnv bufC8 "f").buf "f").written =
      (SaveAs baseEnv bufC8 "f").written := by
  have h := saveAs_eofnewline_once baseEnv bufC8 "f" [97, 32] rfl rfl rfl (by decide)
    (by decide) (by decide)
  exact ⟨rfl, by rw [h.1]; rfl, h.2⟩

/-- Environment whose encoding table rejects every name. -/
def envC10 : Env := { baseEnv with encodingKnown := fun _ => false }

/-- Buffer with both normalizations enabled and a line with trailing
whitespace. -/
def bufC10 : Buffer :=
  { baseBuf with settings :=
      { baseBuf.settings with rmtrailingws := true, eofnewline := true } }

/-- C10: SaveAs applies trailing-whitespace trimming and trailing-newline
insertion before the encoding lookup, so a call that fails with the
encoding error (analogously for later directory or I/O failures) returns
with the buffer's line text already mutated to the normalized form while
nothing was written. -/
theorem saveAs_mutation_precedes_errors (env : Env) (b : Buffer) (filename : String)
    (hs : b.scratchType = false)
    (henc : env.encodingKnown b.settings.encoding = false)
    (hd : dirPass env b.settings.mkparents filename) :
    (SaveAs env b filename).ret = some .encodingUnknown ∧
    (SaveAs env b filename).buf.lines = (normalizeForSave b).lines ∧
    (SaveAs env b filename).written = none ∧
    (SaveAs env b filename).writtenPath = none := by
  have hset := (normalizeForSave_frame b).1
  have hdp1 : dirPass env (normalizeForSave b).settings.mkparents filename := by
    rw [hset]
    exact hd
  obtain ⟨bRet, bBuf, bWritten, bWPath, bSize, bHash, bFde⟩ :=
    saveAsBody_fields env (normalizeForSave b) filename hdp1
  have henc1 : env.encodingKnown (normalizeForSave b).settings.encoding = false := by
    rw [hset]
    exact henc
  have hwr := saveAsWrite_enc_fail env (normalizeForSave b) filename
    (replaceHome env.home filename) henc1
  obtain ⟨sRet, sWritten, sWPath, sSize, sHash, sFde, sBuf⟩ :=
    saveAs_of_nonscratch env b filename hs
  refine ⟨?_, ?_, ?_, ?_⟩
  · rw [sRet, bRet, hwr]
  · simp [sBuf, bBuf, hwr]
  · rw [sWritten, bWritten, hwr]
  · rw [sWPath, bWPath, hwr]

/-- Witness for C10: the line "a " has been trimmed to "a" and an empty
last line appended even though SaveAs failed on the unknown encoding. -/
theorem saveAs_mutation_precedes_errors_w :
    (SaveAs envC10 bufC10 "f").ret = some .encodingUnknown ∧
    (SaveAs envC10 bufC10 "f").buf.lines = [[97], []] ∧
    (SaveAs envC10 bufC10 "f").buf.lines ≠ bufC10.lines := by
  have h := saveAs_mutation_precedes_errors envC10 bufC10 "f" rfl rfl (Or.inl rfl)
  exact ⟨h.1, by rw [h.2.1]; rfl, by rw [h.2.1]; decide⟩

end MicroBuffer
